import Mathlib

/-!
# Verification of the pyDHgripper protocol codecs

Shallow embedding of the two serial-protocol driver modules of the
`pyDHgripper` repository:

* `src/pyDHgripper/DH3/Gripper.py` — the DH3 gripper driver
  (14-byte fixed-preamble frames, no checksum);
* `src/pyDHgripper/RGD/Gripper.py` — the RGD gripper driver
  (8-byte CRC-terminated Modbus-style frames).

Machine integers are modelled as `Int`/`Nat` with explicit `% 256` /
`% 65536` where Python's `to_bytes`/`from_bytes` and bit operations
truncate.  Python's `%` on `Int` is floor-mod, which for a positive
modulus coincides with Lean's `Int.emod` (the `%` of `Int`), so `%`
is used directly.  Fallible Python operations (`int.to_bytes` raising
`OverflowError`) are modelled with `Option`.  The serial transport is
modelled explicitly: a call is summarised by a `Trace` recording the
frames written, the number of reads performed, the exception raised
(if any) and the returned value.
-/

namespace PyDHgripper

/-! ## Byte-level helpers shared by both drivers -/

/-- Python `v.to_bytes(1, byteorder='big', signed=True)`: succeeds exactly
for `-128 ≤ v ≤ 127` (raising `OverflowError` otherwise, modelled as
`none`) and yields the two's-complement byte `v % 256`. -/
def sByte (v : Int) : Option Nat :=
  if -128 ≤ v ∧ v ≤ 127 then some ((v % 256).toNat) else none

/-- Python `int.from_bytes(b, byteorder='big', signed=True)` on a single
byte `b` (`0 ≤ b < 256`): the signed reading of the byte. -/
def byteToSigned (b : Nat) : Int :=
  if b < 128 then (b : Int) else (b : Int) - 256

/-- The renormalisation loop `cdata[i] = cdata[i] if cdata[i] >= 0 else
cdata[i] + 256` applied to each frame byte in both drivers'
`write_uart`. -/
def normByte (b : Int) : Int :=
  if 0 ≤ b then b else b + 256

/-- Big-endian value of a byte list, as Python
`int.from_bytes(bs, byteorder='big', signed=False)`. -/
def bytesToNat (bs : List Nat) : Nat :=
  bs.foldl (fun a b => 256 * a + b) 0

/-- Python `int.from_bytes(bs, byteorder='big', signed=True)` for an
arbitrary-length buffer; the empty buffer reads as `0`. -/
def fromBytesSigned (bs : List Nat) : Int :=
  let u := bytesToNat bs
  if u < 2 ^ (8 * bs.length - 1) then (u : Int)
  else (u : Int) - 2 ^ (8 * bs.length)

/-- `in_range` (defined identically at the top of both driver files):
the check `val_min <= val <= val_max`; the caller raises
`RuntimeError('!!! VALUE IS OUT OF RANGE !!!')` when it is false. -/
def in_range (val val_min val_max : Int) : Bool :=
  decide (val_min ≤ val ∧ val ≤ val_max)

/-! ## The CRC-16 engine (RGD only)

Both drivers construct `self.crc16 = crcmod.mkCrcFun(0x18005, rev=True,
initCrc=0xFFFF, xorOut=0x0000)`.  The semantics of that `crcmod`
configuration is the bit-reflected CRC-16 (polynomial `0x8005`
reversed, i.e. the constant `0xA001`), processed low-bit-first with
initial register `0xFFFF` and no final XOR — the CRC-16/MODBUS
variant.  `crcBit`/`crcByteUpd`/`crc16` embed that computation. -/

/-- One bit step of the reflected CRC: shift right, conditionally XOR
the reversed polynomial `0xA001`. -/
def crcBit (crc : Nat) : Nat :=
  if crc % 2 = 1 then (crc / 2) ^^^ 0xA001 else crc / 2

/-- One byte step: XOR the byte into the low bits, then eight bit
steps. -/
def crcByteUpd (crc b : Nat) : Nat :=
  crcBit (crcBit (crcBit (crcBit (crcBit (crcBit (crcBit (crcBit (crc ^^^ b))))))))

/-- The full CRC over a byte list: initial register `0xFFFF`, no final
XOR. -/
def crc16 (data : List Nat) : Nat :=
  data.foldl crcByteUpd 0xFFFF

/-- `Gripper.cal_crc` (identical in both files): each array element is
serialised with `to_bytes(1, byteorder='big', signed=True)` (hence
`none` if any element is outside `[-128, 127]`), the CRC function is
applied, and the 16-bit result is split big-endian into
`(crc_l, crc_h) = (low byte, high byte)` — returned in that order. -/
def cal_crc (array : List Int) : Option (Nat × Nat) :=
  (array.mapM sByte).map fun bs =>
    ((crc16 bs) % 256, (crc16 bs) / 256)

/-! Specification-side CRC, written from the spec's words: ‶CRC-16 with
generating polynomial 0x8005 represented in reflected/bit-reversed
form, initial register value 0xFFFF, no final XOR″.  The polynomial
constant is literally the bit-reversal of `0x8005`. -/

/-- Bit-reversal of the low `w` bits of `n`. -/
def bitRev (w n : Nat) : Nat :=
  (List.range w).foldl (fun acc i => 2 * acc + n / 2 ^ i % 2) 0

/-- Modelled from the spec: one step of the reflected-polynomial CRC,
using the bit-reversed form of the generating polynomial `0x8005`. -/
def crcSpecStep (crc : Nat) : Nat :=
  if crc % 2 = 1 then (crc / 2) ^^^ bitRev 16 0x8005 else crc / 2

/-- Modelled from the spec: one input byte of the reflected CRC-16. -/
def crcSpecByte (crc b : Nat) : Nat :=
  crcSpecStep^[8] (crc ^^^ b)

/-- Modelled from the spec: the CRC-16 of §4.1 — reflected polynomial
`0x8005`, initial register `0xFFFF`, no final XOR. -/
def crc16Spec (data : List Nat) : Nat :=
  data.foldl crcSpecByte 0xFFFF

/-! ## Frame construction -/

/-- Python `(val >> k) & 0xFF` on an `int`: arithmetic shift (floor
division) then two's-complement low byte (floor mod). -/
def pyByte (val : Int) (k : Nat) : Int :=
  (Int.fdiv val (2 ^ k)) % 256

/-- The 14-byte frame built by `DH3.Gripper.write_uart` (lines
122-146): fixed preamble `FF FE FD FC 01`, register address pair,
`set_addr` (`0x01` write / `0x00` read), a zero byte, the four
big-endian bytes of the 32-bit value, trailer `0xFB`; every entry then
renormalised by `normByte`. -/
def dh3_frame (is_set : Bool) (hi lo : Nat) (val : Int) : List Int :=
  let set_addr : Int := if is_set then 0x01 else 0x00
  ([0xFF, 0xFE, 0xFD, 0xFC, 0x01, (hi : Int), (lo : Int), set_addr, 0x00,
    pyByte val 24, pyByte val 16, pyByte val 8, pyByte val 0,
    0xFB]).map normByte

/-- The 8-byte frame built by `RGD.Gripper.write_uart` (lines 121-156).
`set_addr` is `0x06` (write) or `0x03` (read).  A negative value is
first decremented by 1; `to_bytes(2, byteorder='big', signed=True)`
requires the result to fit `[-32768, 32767]` (else `OverflowError`,
modelled as `none`) and yields big-endian bytes, so the code's `val_l`
is the signed reading of the HIGH-order byte and `val_h` the signed
reading of the LOW-order byte.  The CRC is computed over the first six
entries, appended as `(crc_l, crc_h)`, and all eight entries are
renormalised by `normByte`. -/
def rgd_frame (is_set : Bool) (hi lo : Nat) (val : Int) : Option (List Int) :=
  let set_addr : Int := if is_set then 0x06 else 0x03
  let v := if 0 ≤ val then val else val - 1
  if -32768 ≤ v ∧ v ≤ 32767 then
    let u := (v % 65536).toNat
    let val_l := byteToSigned (u / 256)
    let val_h := byteToSigned (u % 256)
    match cal_crc [0x01, set_addr, (hi : Int), (lo : Int), val_l, val_h] with
    | some (crc_l, crc_h) =>
        some (([0x01, set_addr, (hi : Int), (lo : Int), val_l, val_h,
                (crc_l : Int), (crc_h : Int)]).map normByte)
    | none => none
  else none

/-- The two value bytes of an RGD frame, as unsigned bytes: the
big-endian byte pair of the (possibly decremented) value's 16-bit
two's complement.  Restates the `to_bytes`/`from_bytes` dance of
`write_uart` over `Nat`; `rgd_frame_build` proves the
correspondence. -/
def rgd_value_bytes (val : Int) : Nat × Nat :=
  let v := if 0 ≤ val then val else val - 1
  let u := (v % 65536).toNat
  (u / 256, u % 256)

/-- The first six bytes of an RGD frame, as unsigned bytes. -/
def rgd_payload_bytes (is_set : Bool) (hi lo : Nat) (val : Int) : List Nat :=
  [0x01, if is_set then 0x06 else 0x03, hi, lo,
   (rgd_value_bytes val).1, (rgd_value_bytes val).2]

/-- The full 8-byte RGD frame an in-range value produces: the six
payload bytes followed by the CRC split `(low, high)`.  Proved equal
to `rgd_frame`'s output in `rgd_frame_build`. -/
def rgd_expected_frame (is_set : Bool) (hi lo : Nat) (val : Int) : List Int :=
  (rgd_payload_bytes is_set hi lo val).map (Nat.cast : Nat → Int) ++
    [((crc16 (rgd_payload_bytes is_set hi lo val) % 256 : Nat) : Int),
     ((crc16 (rgd_payload_bytes is_set hi lo val) / 256 : Nat) : Int)]

/-- Response decoding, identical in both drivers' `write_uart`:
`int.from_bytes(udata[3:5], byteorder='big', signed=True)`, then add 1
if negative.  Python slicing silently truncates, so a buffer shorter
than 5 bytes decodes its (possibly empty) tail. -/
def decode_resp (udata : List Nat) : Int :=
  let d := fromBytesSigned ((udata.drop 3).take 2)
  if d < 0 then d + 1 else d

/-! ## Call traces

A single call into a driver is summarised by the frames it wrote to the
serial port, the number of port reads it performed, the exception it
raised (if any), and the value it returned (if any).  The two
exceptions of interest are `in_range`'s `RuntimeError` and
`to_bytes`'s `OverflowError`. -/

/-- The exceptions a driver call can raise before completing. -/
inductive GErr
  | rangeErr
  | overflowErr
  deriving DecidableEq, Repr

/-- Summary of one driver call's interaction with the transport. -/
structure Trace where
  writes : List (List Int)
  reads : Nat
  err : Option GErr
  ret : Option Int
  deriving DecidableEq, Repr

/-! ## The RGD driver's named operations -/

/-- The RGD setters (`RGD/Gripper.py` lines 186-314). -/
inductive RgdOp
  | force
  | pos
  | vel
  | absRot
  | rotVel
  | rotForce
  | relRot
  deriving DecidableEq, Repr

/-- The bound pair each RGD setter passes to `in_range`. -/
def RgdOp.bounds : RgdOp → Int × Int
  | .force => (20, 100)
  | .pos => (0, 1000)
  | .vel => (1, 100)
  | .absRot => (-32768, 32767)
  | .rotVel => (1, 100)
  | .rotForce => (20, 100)
  | .relRot => (-32768, 32767)

/-- The `(modbus_high_addr, modbus_low_addr)` pair each RGD setter
passes to `write_uart`. -/
def RgdOp.addr : RgdOp → Nat × Nat
  | .force => (0x01, 0x01)
  | .pos => (0x01, 0x03)
  | .vel => (0x01, 0x04)
  | .absRot => (0x01, 0x05)
  | .rotVel => (0x01, 0x07)
  | .rotForce => (0x01, 0x08)
  | .relRot => (0x01, 0x09)

/-- Whether the setter leaves `write_uart`'s `is_read` at its default
`True` (`set_abs_rot` and `set_rot_vel` pass `is_read=False`). -/
def RgdOp.isRead : RgdOp → Bool
  | .absRot => false
  | .rotVel => false
  | _ => true

/-- `RGD.Gripper.write_uart`: build the frame (an `OverflowError` in
`to_bytes` aborts before anything reaches the port), write it, and when
`is_read` also read the port once and decode the response `resp`. -/
def rgd_write_uart (hi lo : Nat) (val : Int) (is_set is_read : Bool)
    (resp : List Nat) : Trace :=
  match rgd_frame is_set hi lo val with
  | none => ⟨[], 0, some .overflowErr, none⟩
  | some f =>
    if is_read then ⟨[f], 1, none, some (decode_resp resp)⟩
    else ⟨[f], 0, none, none⟩

/-- An RGD setter call: `in_range` against the operation's bounds (a
failure raises before `write_uart` is entered), then the `write_uart`
call with the operation's register address.  `set_pos` additionally
polls the position register afterwards when `blocking=True`; that poll
loop starts only after the set frame below is on the wire and is not
part of this per-call summary. -/
def rgd_set (op : RgdOp) (val : Int) (resp : List Nat) : Trace :=
  if in_range val op.bounds.1 op.bounds.2 then
    rgd_write_uart op.addr.1 op.addr.2 val true op.isRead resp
  else ⟨[], 0, some .rangeErr, none⟩

/-- Round-trip of one RGD value against an echo device that places the
request frame's two value bytes (offsets 4-5) at response offsets 3-4:
`none` when encoding already fails. -/
def rgd_roundtrip (op : RgdOp) (val : Int) : Option Int :=
  (rgd_frame true op.addr.1 op.addr.2 val).map fun f =>
    decode_resp ([0, 0, 0] ++ ((f.drop 4).take 2).map Int.toNat)

/-! ## The DH3 driver's named operations -/

/-- The DH3 setters (`DH3/Gripper.py` lines 205-334). -/
inductive Dh3Op
  | openForce
  | closeForce
  | pos
  | ang
  deriving DecidableEq, Repr

/-- The bound pair each DH3 setter passes to `in_range`. -/
def Dh3Op.bounds : Dh3Op → Int × Int
  | .openForce => (10, 90)
  | .closeForce => (10, 90)
  | .pos => (0, 95)
  | .ang => (0, 100)

/-- The `(modbus_high_addr, modbus_low_addr)` pair of each DH3
setter. -/
def Dh3Op.addr : Dh3Op → Nat × Nat
  | .openForce => (0x05, 0x02)
  | .closeForce => (0x05, 0x03)
  | .pos => (0x06, 0x02)
  | .ang => (0x07, 0x02)

/-- `DH3.Gripper.write_uart`: build and write the 14-byte frame (frame
construction is total here — no CRC, no `to_bytes`), and when `is_read`
read the port once and decode the response. -/
def dh3_write_uart (hi lo : Nat) (val : Int) (is_set is_read : Bool)
    (resp : List Nat) : Trace :=
  let f := dh3_frame is_set hi lo val
  if is_read then ⟨[f], 1, none, some (decode_resp resp)⟩
  else ⟨[f], 0, none, none⟩

/-- A DH3 setter call: `in_range`, then `write_uart` with the default
`is_read=True` (every DH3 setter leaves the default).  `set_pos` and
`set_ang` additionally poll afterwards when `blocking=True`; that loop
starts only after the set frame below is on the wire. -/
def dh3_set (op : Dh3Op) (val : Int) (resp : List Nat) : Trace :=
  if in_range val op.bounds.1 op.bounds.2 then
    dh3_write_uart op.addr.1 op.addr.2 val true true resp
  else ⟨[], 0, some .rangeErr, none⟩

/-- `DH3.Gripper.init_feedback` (lines 162-174): a single
`write_uart(modbus_high_addr=0x08, modbus_low_addr=0x01, val=-1)` call
with the default `is_read=True`, whose decoded return value is
discarded (`init_feedback` itself returns `None`). -/
def dh3_init_feedback (resp : List Nat) : Trace :=
  { dh3_write_uart 0x08 0x01 (-1) true true resp with ret := none }

/-- Round-trip of one DH3 value against an echo device that places the
request frame's two low-order value bytes (offsets 11-12) at response
offsets 3-4. -/
def dh3_roundtrip (op : Dh3Op) (val : Int) : Int :=
  decode_resp
    ([0, 0, 0] ++ (((dh3_frame true op.addr.1 op.addr.2 val).drop 11).take 2).map Int.toNat)

/-! ## The RGD readiness routines

`RGD.Gripper.init_feedback` (lines 316-338) and `init_rot_feedback`
(lines 416-438) poll a state register (`0x0200` resp. `0x020A`).  The
device is abstracted as the list of state values its successive reads
decode to.  Each routine performs one initial read and then runs two
`while` loops in sequence: while the value is `0`, resend `init_state`
and re-read; then, while the value is `2`, sleep 100 ms and re-read.
The result records the final read value, the number of `init_state`
resends and the number of sleeps; `none` means the supplied state list
was exhausted with a loop still running. -/

/-- One Python `while rdata == c:` re-read loop: starting from the
current read value `r`, keep consuming states from `ss` (counting
iterations in `n`) while the value equals `c`; return the first value
that differs, the iteration count, and the unconsumed states (`none`
when the state list is exhausted with the loop still running). -/
def pollLoop (c : Int) : List Int → Int → Nat → Option (Int × Nat × List Int)
  | [], r, n => if r = c then none else some (r, n, [])
  | s :: ss2, r, n =>
    if r = c then pollLoop c ss2 s (n + 1) else some (r, n, s :: ss2)

/-- `RGD.Gripper.init_feedback`, as a function of the decoded state
values the device reports: returns `(final state, init_state resends,
sleeps)`. -/
def rgd_init_feedback (states : List Int) : Option (Int × Nat × Nat) :=
  match states with
  | [] => none
  | s0 :: rest =>
    match pollLoop 0 rest s0 0 with
    | none => none
    | some (r1, inits, rest1) =>
      match pollLoop 2 rest1 r1 0 with
      | none => none
      | some (r2, sleeps, _) => some (r2, inits, sleeps)

/-- `RGD.Gripper.init_rot_feedback`: textually the same control flow as
`init_feedback`, polling register `0x020A` instead of `0x0200`; under
the state-value abstraction the dynamics coincide. -/
def rgd_init_rot_feedback (states : List Int) : Option (Int × Nat × Nat) :=
  rgd_init_feedback states

/-! ## Helper lemmas -/

theorem sByte_eq_some {v : Int} {b : Nat} (h : sByte v = some b) :
    -128 ≤ v ∧ v ≤ 127 ∧ b = (v % 256).toNat := by
  unfold sByte at h
  split at h
  · exact ⟨by omega, by omega, by injection h with h2; omega⟩
  · exact absurd h (by simp)

theorem sByte_of_bounds {v : Int} (h1 : -128 ≤ v) (h2 : v ≤ 127) :
    sByte v = some ((v % 256).toNat) := by
  unfold sByte
  rw [if_pos ⟨h1, h2⟩]

theorem byteToSigned_bounds {b : Nat} (h : b < 256) :
    -128 ≤ byteToSigned b ∧ byteToSigned b ≤ 127 := by
  unfold byteToSigned
  split <;> omega

theorem normByte_byteToSigned {b : Nat} (h : b < 256) :
    normByte (byteToSigned b) = (b : Int) := by
  unfold normByte byteToSigned
  split <;> split <;> omega

theorem byteToSigned_emod_toNat {b : Nat} (h : b < 256) :
    (byteToSigned b % 256).toNat = b := by
  unfold byteToSigned
  split <;> omega

theorem normByte_eq_cast {v : Int} (h1 : -128 ≤ v) (h2 : v ≤ 127) :
    normByte v = (((v % 256).toNat : Nat) : Int) := by
  unfold normByte
  split <;> omega

theorem mapM_sByte_eq_some {a : List Int} {bs : List Nat}
    (h : a.mapM sByte = some bs) :
    (∀ v ∈ a, -128 ≤ v ∧ v ≤ 127) ∧
      bs = a.map fun v => (v % 256).toNat := by
  induction a generalizing bs with
  | nil =>
    simp only [List.mapM_nil, Option.pure_def, Option.some.injEq] at h
    simp [h.symm]
  | cons x xs ih =>
    rw [List.mapM_cons] at h
    simp only [Option.bind_eq_bind, Option.pure_def, Option.bind_eq_some,
      Option.some.injEq] at h
    obtain ⟨y, hy, ys, hys, rfl⟩ := h
    obtain ⟨hmem, rfl⟩ := ih hys
    obtain ⟨hx1, hx2, rfl⟩ := sByte_eq_some hy
    refine ⟨?_, by simp⟩
    intro v hv
    rcases List.mem_cons.mp hv with rfl | hv
    · exact ⟨hx1, hx2⟩
    · exact hmem v hv

theorem mapM_sByte_of_bounds {a : List Int}
    (h : ∀ v ∈ a, -128 ≤ v ∧ v ≤ 127) :
    a.mapM sByte = some (a.map fun v => (v % 256).toNat) := by
  induction a with
  | nil => rfl
  | cons x xs ih =>
    rw [List.mapM_cons, sByte_of_bounds (h x (by simp)).1 (h x (by simp)).2,
      ih (fun v hv => h v (by simp [hv]))]
    rfl

theorem crcBit_lt {c : Nat} (h : c < 2 ^ 16) : crcBit c < 2 ^ 16 := by
  unfold crcBit
  split
  · exact Nat.xor_lt_two_pow (by omega) (by norm_num)
  · omega

theorem crcByteUpd_lt {c b : Nat} (h : c < 2 ^ 16) (hb : b < 256) :
    crcByteUpd c b < 2 ^ 16 := by
  unfold crcByteUpd
  exact crcBit_lt (crcBit_lt (crcBit_lt (crcBit_lt (crcBit_lt (crcBit_lt
    (crcBit_lt (crcBit_lt (Nat.xor_lt_two_pow h (by omega)))))))))

theorem foldl_crcByteUpd_lt (bs : List Nat) (c : Nat) (h : c < 2 ^ 16)
    (hb : ∀ b ∈ bs, b < 256) : bs.foldl crcByteUpd c < 2 ^ 16 := by
  induction bs generalizing c with
  | nil => exact h
  | cons x xs ih =>
    exact ih (crcByteUpd c x) (crcByteUpd_lt h (hb x (by simp)))
      (fun b hbm => hb b (List.mem_cons_of_mem x hbm))

theorem crc16_lt {bs : List Nat} (h : ∀ b ∈ bs, b < 256) :
    crc16 bs < 2 ^ 16 :=
  foldl_crcByteUpd_lt bs 0xFFFF (by norm_num) h

theorem cal_crc_eq_some {a : List Int} {p : Nat × Nat}
    (h : cal_crc a = some p) :
    (∀ v ∈ a, -128 ≤ v ∧ v ≤ 127) ∧
      p = (crc16 (a.map fun v => (v % 256).toNat) % 256,
           crc16 (a.map fun v => (v % 256).toNat) / 256) := by
  unfold cal_crc at h
  cases hm : a.mapM sByte with
  | none => rw [hm] at h; exact absurd h (by simp)
  | some bs =>
    rw [hm] at h
    obtain ⟨hmem, rfl⟩ := mapM_sByte_eq_some hm
    simp only [Option.map_some', Option.some.injEq] at h
    exact ⟨hmem, h.symm⟩

theorem rgd_frame_build {is_set : Bool} {hi lo : Nat} {val : Int}
    (hhi : hi ≤ 127) (hlo : lo ≤ 127)
    (h1 : -32767 ≤ val) (h2 : val ≤ 32767) :
    rgd_frame is_set hi lo val = some (rgd_expected_frame is_set hi lo val) := by
  have hv1 : -32768 ≤ (if 0 ≤ val then val else val - 1) := by split <;> omega
  have hv2 : (if 0 ≤ val then val else val - 1) ≤ 32767 := by split <;> omega
  have hb1 : (((if 0 ≤ val then val else val - 1) % 65536).toNat / 256) < 256 := by
    omega
  have hb2 : (((if 0 ≤ val then val else val - 1) % 65536).toNat % 256) < 256 := by
    omega
  have hset : (0 : Int) ≤ (if is_set then (0x06 : Int) else 0x03) ∧
      (if is_set then (0x06 : Int) else 0x03) ≤ 127 := by cases is_set <;> simp
  have hcal : cal_crc [0x01, if is_set then (0x06 : Int) else 0x03, (hi : Int),
      (lo : Int),
      byteToSigned (((if 0 ≤ val then val else val - 1) % 65536).toNat / 256),
      byteToSigned (((if 0 ≤ val then val else val - 1) % 65536).toNat % 256)] =
      some (crc16 (rgd_payload_bytes is_set hi lo val) % 256,
            crc16 (rgd_payload_bytes is_set hi lo val) / 256) := by
    unfold cal_crc
    rw [mapM_sByte_of_bounds]
    · simp only [Option.map_some', Option.some.injEq, List.map_cons, List.map_nil]
      have e1 : ((0x01 : Int) % 256).toNat = 0x01 := by decide
      have e2 : ((if is_set then (0x06 : Int) else 0x03) % 256).toNat =
          (if is_set then 0x06 else 0x03) := by cases is_set <;> decide
      have e3 : (((hi : Nat) : Int) % 256).toNat = hi := by omega
      have e4 : (((lo : Nat) : Int) % 256).toNat = lo := by omega
      rw [e1, e2, e3, e4, byteToSigned_emod_toNat hb1, byteToSigned_emod_toNat hb2]
      rfl
    · intro v hv
      simp only [List.mem_cons, List.not_mem_nil, or_false] at hv
      rcases hv with rfl | rfl | rfl | rfl | rfl | rfl
      · constructor <;> norm_num
      · cases is_set <;> constructor <;> norm_num
      · constructor <;> omega
      · constructor <;> omega
      · exact byteToSigned_bounds hb1
      · exact byteToSigned_bounds hb2
  unfold rgd_frame
  rw [if_pos ⟨hv1, hv2⟩]
  dsimp only
  rw [hcal]
  simp only [Option.some.injEq]
  unfold rgd_expected_frame rgd_payload_bytes rgd_value_bytes
  simp only [List.map_cons, List.map_nil, List.cons_append, List.nil_append]
  rw [normByte_byteToSigned hb1, normByte_byteToSigned hb2]
  have n1 : normByte 0x01 = ((0x01 : Nat) : Int) := by decide
  have n2 : normByte (if is_set then (0x06 : Int) else 0x03) =
      (((if is_set then (0x06 : Nat) else 0x03) : Nat) : Int) := by
    cases is_set <;> decide
  have n3 : normByte (hi : Int) = (hi : Int) := by unfold normByte; omega
  have n4 : normByte (lo : Int) = (lo : Int) := by unfold normByte; omega
  have n5 : ∀ c : Nat, normByte (c : Int) = (c : Int) := by
    intro c; unfold normByte; omega
  rw [n1, n2, n3, n4, n5, n5]

theorem rgd_payload_bytes_lt {is_set : Bool} {hi lo : Nat} {val : Int}
    (hhi : hi ≤ 127) (hlo : lo ≤ 127) :
    ∀ b ∈ rgd_payload_bytes is_set hi lo val, b < 256 := by
  intro b hb
  simp only [rgd_payload_bytes, rgd_value_bytes, List.mem_cons,
    List.not_mem_nil, or_false] at hb
  rcases hb with rfl | rfl | rfl | rfl | rfl | rfl <;>
    first
      | omega
      | (cases is_set <;> norm_num)

theorem rgd_frame_inv {is_set : Bool} {hi lo : Nat} {val : Int} {f : List Int}
    (h : rgd_frame is_set hi lo val = some f) :
    ∃ bs : List Nat, (∀ b ∈ bs, b < 256) ∧ bs.length = 6 ∧
      f = bs.map (Nat.cast : Nat → Int) ++
        [((crc16 bs % 256 : Nat) : Int), ((crc16 bs / 256 : Nat) : Int)] := by
  have h0 := h
  unfold rgd_frame at h
  dsimp only at h
  set v := if 0 ≤ val then val else val - 1 with hv
  by_cases hcond : -32768 ≤ v ∧ v ≤ 32767
  · rw [if_pos hcond] at h
    split at h
    rotate_left
    · exact absurd h (by simp)
    next crc_l crc_h heq =>
      obtain ⟨hmem, _⟩ := cal_crc_eq_some heq
      have hhi : hi ≤ 127 := by
        have := (hmem (hi : Int) (by simp)).2; omega
      have hlo : lo ≤ 127 := by
        have := (hmem (lo : Int) (by simp)).2; omega
      have hval : -32767 ≤ val ∧ val ≤ 32767 := by
        split at hv <;> omega
      rw [rgd_frame_build hhi hlo hval.1 hval.2] at h0
      injection h0 with h0
      exact ⟨rgd_payload_bytes is_set hi lo val,
        rgd_payload_bytes_lt hhi hlo, rfl, h0.symm⟩
  · rw [if_neg hcond] at h
    exact absurd h (by simp)

theorem pyByte_bounds (val : Int) (k : Nat) :
    0 ≤ pyByte val k ∧ pyByte val k < 256 :=
  ⟨Int.emod_nonneg _ (by norm_num), Int.emod_lt_of_pos _ (by norm_num)⟩

theorem normByte_of_nonneg {v : Int} (h : 0 ≤ v) : normByte v = v := by
  unfold normByte
  omega

/-- Decoding a well-formed 5-byte response whose value bytes are
`(b0, b1)` big-endian. -/
theorem decode_resp_two (x y z b0 b1 : Nat) (h0 : b0 < 256) (h1 : b1 < 256) :
    decode_resp [x, y, z, b0, b1] =
      if 256 * b0 + b1 < 32768 then ((256 * b0 + b1 : Nat) : Int)
      else ((256 * b0 + b1 : Nat) : Int) - 65535 := by
  unfold decode_resp fromBytesSigned bytesToNat
  simp only [List.drop, List.take, List.foldl, List.length_cons, List.length_nil]
  norm_num
  split <;> split <;> omega

/-- Decoding a 4-byte (truncated) response: the single byte at offset 3
is read as a signed 8-bit value, plus-one-corrected when negative. -/
theorem decode_resp_one (x y z b : Nat) (hb : b < 256) :
    decode_resp [x, y, z, b] =
      if b < 128 then (b : Int) else (b : Int) - 255 := by
  unfold decode_resp fromBytesSigned bytesToNat
  simp only [List.drop, List.take, List.foldl, List.length_cons, List.length_nil]
  norm_num
  split <;> split <;> omega

theorem pollLoop_ne {c : Int} {ss : List Int} {r : Int} {n : Nat}
    {out : Int × Nat × List Int} (h : pollLoop c ss r n = some out) :
    out.1 ≠ c := by
  induction ss generalizing r n with
  | nil =>
    unfold pollLoop at h
    split at h
    · exact absurd h (by simp)
    next hne =>
      injection h with h
      subst h
      exact hne
  | cons s ss2 ih =>
    unfold pollLoop at h
    split at h
    · exact ih h
    next hne =>
      injection h with h
      subst h
      exact hne

theorem rgd_init_feedback_ne_two {states : List Int} {r : Int} {i s : Nat}
    (h : rgd_init_feedback states = some (r, i, s)) : r ≠ 2 := by
  unfold rgd_init_feedback at h
  split at h
  · exact absurd h (by simp)
  next s0 rest =>
    split at h
    · exact absurd h (by simp)
    next r1 inits rest1 hp =>
      split at h
      · exact absurd h (by simp)
      next r2 sleeps rest2 hq =>
        simp only [Option.some.injEq, Prod.mk.injEq] at h
        obtain ⟨rfl, -, -⟩ := h
        exact pollLoop_ne hq

theorem rgd_write_uart_err (hi lo : Nat) (val : Int) (is_set is_read : Bool)
    (resp : List Nat) :
    (rgd_write_uart hi lo val is_set is_read resp).err = none ∨
    (rgd_write_uart hi lo val is_set is_read resp).err = some GErr.overflowErr := by
  unfold rgd_write_uart
  cases hf : rgd_frame is_set hi lo val <;> cases is_read <;> simp

theorem dh3_write_uart_err (hi lo : Nat) (val : Int) (is_set is_read : Bool)
    (resp : List Nat) :
    (dh3_write_uart hi lo val is_set is_read resp).err = none := by
  unfold dh3_write_uart
  cases is_read <;> rfl

theorem rgd_set_rangeErr_iff (op : RgdOp) (val : Int) (resp : List Nat) :
    (rgd_set op val resp).err = some GErr.rangeErr ↔
      ¬(op.bounds.1 ≤ val ∧ val ≤ op.bounds.2) := by
  unfold rgd_set
  by_cases hin : op.bounds.1 ≤ val ∧ val ≤ op.bounds.2
  · rw [if_pos (by simpa [in_range] using hin)]
    rcases rgd_write_uart_err op.addr.1 op.addr.2 val true op.isRead resp with
      h | h <;> simp [h, hin]
  · rw [if_neg (by simpa [in_range] using hin)]
    simp [hin]

theorem rgd_set_out_of_range (op : RgdOp) (val : Int) (resp : List Nat)
    (h : ¬(op.bounds.1 ≤ val ∧ val ≤ op.bounds.2)) :
    rgd_set op val resp = ⟨[], 0, some GErr.rangeErr, none⟩ := by
  unfold rgd_set
  rw [if_neg (by simpa [in_range] using h)]

theorem dh3_set_rangeErr_iff (op : Dh3Op) (val : Int) (resp : List Nat) :
    (dh3_set op val resp).err = some GErr.rangeErr ↔
      ¬(op.bounds.1 ≤ val ∧ val ≤ op.bounds.2) := by
  unfold dh3_set
  by_cases hin : op.bounds.1 ≤ val ∧ val ≤ op.bounds.2
  · rw [if_pos (by simpa [in_range] using hin)]
    simp [dh3_write_uart_err, hin]
  · rw [if_neg (by simpa [in_range] using hin)]
    simp [hin]

theorem dh3_set_out_of_range (op : Dh3Op) (val : Int) (resp : List Nat)
    (h : ¬(op.bounds.1 ≤ val ∧ val ≤ op.bounds.2)) :
    dh3_set op val resp = ⟨[], 0, some GErr.rangeErr, none⟩ := by
  unfold dh3_set
  rw [if_neg (by simpa [in_range] using h)]

theorem rgd_echo_decode {is_set : Bool} {hi lo : Nat} {val : Int}
    (h1 : -32767 ≤ val) (h2 : val ≤ 32767) :
    decode_resp ([0, 0, 0] ++
      (((rgd_expected_frame is_set hi lo val).drop 4).take 2).map Int.toNat) =
      val := by
  unfold rgd_expected_frame rgd_payload_bytes rgd_value_bytes
  dsimp only
  simp only [List.map_cons, List.map_nil, List.cons_append, List.nil_append,
    List.drop, List.take, Int.toNat_natCast]
  rw [decode_resp_two 0 0 0 _ _ (by omega) (by omega)]
  by_cases hz : 0 ≤ val
  · rw [if_pos hz]
    split <;> omega
  · rw [if_neg hz]
    split <;> omega

theorem dh3_echo_decode {hi lo : Nat} {val : Int}
    (h1 : 0 ≤ val) (h2 : val ≤ 255) :
    decode_resp ([0, 0, 0] ++
      (((dh3_frame true hi lo val).drop 11).take 2).map Int.toNat) = val := by
  have e8 : pyByte val 8 = 0 := by
    unfold pyByte
    rw [Int.fdiv_eq_ediv _ (by norm_num)]
    norm_num
    omega
  have e0 : pyByte val 0 = val := by
    unfold pyByte
    rw [Int.fdiv_eq_ediv _ (by norm_num)]
    norm_num
    omega
  unfold dh3_frame
  dsimp only
  simp only [List.map_cons, List.map_nil, List.drop, List.take,
    List.cons_append, List.nil_append, List.map]
  rw [e8, e0, normByte_of_nonneg (le_refl 0), normByte_of_nonneg h1]
  rw [show ((0 : Int)).toNat = 0 from rfl]
  rw [decode_resp_two 0 0 0 0 val.toNat (by norm_num) (by omega)]
  split <;> omega

/-! ## Claim theorems -/

/-- Claim C1, counterexample: the frame `set_force(50)` builds does NOT
have the claimed first six bytes `01 06 01 01 32 00` — the code's
`val_l` is the signed reading of `to_bytes(2, 'big')`'s FIRST
(high-order) byte, so offset 4 carries `0x00` and offset 5 carries
`0x32`. -/
theorem calling_set_force_50_payload_cex :
    (rgd_frame true 0x01 0x01 50).map (List.take 6) ≠
      some [0x01, 0x06, 0x01, 0x01, 0x32, 0x00] := by
  decide

set_option maxRecDepth 8192 in
/-- Claim C1, amended: `set_force(50)` on the RGD driver transmits the
8-byte frame `01 06 01 01 00 32 58 23`: the 16-bit command value is
placed HIGH-order byte first (offset 4), low-order byte at offset 5,
and bytes 6-7 are the CRC (low, high) computed over those six bytes. -/
theorem calling_set_force_50_frame (resp : List Nat) :
    (rgd_set .force 50 resp).writes =
      [[0x01, 0x06, 0x01, 0x01, 0x00, 0x32, 0x58, 0x23]] ∧
    cal_crc [0x01, 0x06, 0x01, 0x01, 0x00, 0x32] = some (0x58, 0x23) := by
  exact ⟨rfl, rfl⟩

/-- Claim C2, counterexample: `-32768` is inside `set_abs_rot`'s
declared bound, but its encoding fails (`-32768 - 1` does not fit two
signed bytes), so the echo round-trip cannot return it. -/
theorem roundtrip_cex :
    in_range (-32768) RgdOp.absRot.bounds.1 RgdOp.absRot.bounds.2 = true ∧
    rgd_roundtrip .absRot (-32768) ≠ some (-32768) := by
  decide

/-- Claim C2, amended: for every operation of either variant and every
value `v` inside that operation's declared bound pair EXCEPT `-32768`
(where the RGD encoder's decrement overflows, see C9), decoding the
encoded value as echoed back by a device returning the request's value
bytes at response offsets 3-4 yields `v` again, including for negative
`v`, where the RGD encoder's decrement-by-1 and the decoder's
add-1-if-negative compensate exactly. -/
theorem roundtrip_in_bounds :
    (∀ (op : RgdOp) (v : Int), op.bounds.1 ≤ v → v ≤ op.bounds.2 →
      v ≠ -32768 → rgd_roundtrip op v = some v) ∧
    (∀ (op : Dh3Op) (v : Int), op.bounds.1 ≤ v → v ≤ op.bounds.2 →
      dh3_roundtrip op v = v) := by
  constructor
  · intro op v hv1 hv2 hv3
    have hrange : -32767 ≤ v ∧ v ≤ 32767 := by
      cases op <;> simp only [RgdOp.bounds] at hv1 hv2 <;> omega
    have haddr : op.addr.1 ≤ 127 ∧ op.addr.2 ≤ 127 := by
      cases op <;> decide
    unfold rgd_roundtrip
    rw [rgd_frame_build haddr.1 haddr.2 hrange.1 hrange.2]
    simp only [Option.map_some', Option.some.injEq]
    exact rgd_echo_decode hrange.1 hrange.2
  · intro op v hv1 hv2
    have hrange : 0 ≤ v ∧ v ≤ 255 := by
      cases op <;> simp only [Dh3Op.bounds] at hv1 hv2 <;> omega
    unfold dh3_roundtrip
    exact dh3_echo_decode hrange.1 hrange.2

/-- Witness for `roundtrip_in_bounds` at concrete inputs. -/
theorem roundtrip_in_bounds_witness :
    rgd_roundtrip .relRot (-5) = some (-5) ∧ dh3_roundtrip .pos 95 = 95 :=
  ⟨roundtrip_in_bounds.1 .relRot (-5) (by decide) (by decide) (by decide),
   roundtrip_in_bounds.2 .pos 95 (by decide) (by decide)⟩

/-- Claim C3, counterexample: on the state sequence `[0, 2, 0]` the RGD
readiness routine terminates although the last-read state is 0 — the
two `while` loops run in sequence, so a 0 read during the busy phase
ends the routine instead of re-entering the first loop. -/
theorem readiness_cex :
    ¬ (∀ (states : List Int) (r : Int) (i s : Nat),
        rgd_init_feedback states = some (r, i, s) → r ≠ 0 ∧ r ≠ 2) := by
  intro hall
  exact ((hall [0, 2, 0] 0 1 1 (by decide)).1) rfl

/-- Claim C3, amended: `init_feedback` and `init_rot_feedback` run two
SEQUENTIAL loops — while the read state is 0, resend `init_state` and
re-read; then, while it is 2, sleep 100 ms and re-read.  The routine
terminates at the first state breaking the loop it is in: the final
state is never 2, but it can be 0 when a 0 arrives during the busy
phase.  On the sequence `[0, 0, 2, 2, 5]` each routine performs two
re-inits while 0 and two delayed re-reads while 2, terminating at
state 5. -/
theorem readiness_state_machine :
    (∀ (states : List Int) (r : Int) (i s : Nat),
      rgd_init_feedback states = some (r, i, s) → r ≠ 2) ∧
    (∀ (states : List Int) (r : Int) (i s : Nat),
      rgd_init_rot_feedback states = some (r, i, s) → r ≠ 2) ∧
    rgd_init_feedback [0, 0, 2, 2, 5] = some (5, 2, 2) ∧
    rgd_init_rot_feedback [0, 0, 2, 2, 5] = some (5, 2, 2) := by
  refine ⟨?_, ?_, by decide, by decide⟩
  · intro states r i s h
    exact rgd_init_feedback_ne_two h
  · intro states r i s h
    unfold rgd_init_rot_feedback at h
    exact rgd_init_feedback_ne_two h

/-- Witness for `readiness_state_machine` at a concrete input. -/
theorem readiness_state_machine_witness :
    rgd_init_feedback [5] = some (5, 0, 0) ∧ (5 : Int) ≠ 2 :=
  ⟨by decide, readiness_state_machine.1 [5] 5 0 0 (by decide)⟩

/-- Claim C4: every DH3 frame is exactly 14 bytes and every RGD frame
is exactly 8 bytes; every byte of either frame lies in 0-255 after the
add-256-if-negative normalisation; and in every RGD frame, bytes 6-7
are the CRC16 engine's (low, high) output over bytes 0-5. -/
theorem frame_invariants :
    (∀ (is_set : Bool) (hi lo : Nat) (val : Int), hi < 256 → lo < 256 →
      (dh3_frame is_set hi lo val).length = 14 ∧
        ∀ b ∈ dh3_frame is_set hi lo val, 0 ≤ b ∧ b < 256) ∧
    (∀ (is_set : Bool) (hi lo : Nat) (val : Int) (f : List Int),
      rgd_frame is_set hi lo val = some f →
        f.length = 8 ∧ (∀ b ∈ f, 0 ≤ b ∧ b < 256) ∧
          f.drop 6 = [((crc16 ((f.take 6).map Int.toNat) % 256 : Nat) : Int),
                      ((crc16 ((f.take 6).map Int.toNat) / 256 : Nat) : Int)]) := by
  constructor
  · intro is_set hi lo val hhi hlo
    refine ⟨by unfold dh3_frame; simp, ?_⟩
    intro b hb
    unfold dh3_frame at hb
    simp only [List.mem_map, List.mem_cons, List.not_mem_nil, or_false] at hb
    obtain ⟨e, he, rfl⟩ := hb
    rcases he with rfl | rfl | rfl | rfl | rfl | rfl | rfl | rfl | rfl |
      rfl | rfl | rfl | rfl | rfl <;>
      first
        | decide
        | (cases is_set <;> decide)
        | (rw [normByte_of_nonneg (by positivity)]
           constructor
           · positivity
           · exact_mod_cast by omega)
        | (rw [normByte_of_nonneg (pyByte_bounds val _).1]
           exact pyByte_bounds val _)
  · intro is_set hi lo val f hf
    obtain ⟨bs, hbs, hlen, rfl⟩ := rgd_frame_inv hf
    have hcrc : crc16 bs < 2 ^ 16 := crc16_lt hbs
    refine ⟨by simp [hlen], ?_, ?_⟩
    · intro b hb
      simp only [List.mem_append, List.mem_map, List.mem_cons,
        List.not_mem_nil, or_false] at hb
      rcases hb with ⟨x, hx, rfl⟩ | rfl | rfl
      · exact ⟨by positivity, by exact_mod_cast hbs x hx⟩
      · exact ⟨by positivity, by exact_mod_cast Nat.mod_lt _ (by norm_num)⟩
      · refine ⟨by positivity, ?_⟩
        have : crc16 bs / 256 < 256 := by omega
        exact_mod_cast this
    · rw [List.take_left' (by simp [hlen]), List.drop_left' (by simp [hlen])]
      simp only [List.map_map, Function.comp_def, Int.toNat_natCast,
        List.map_id']

set_option maxRecDepth 8192 in
/-- Witness for `frame_invariants` at concrete inputs. -/
theorem frame_invariants_witness :
    ((dh3_frame true 6 2 50).length = 14 ∧
      ∀ b ∈ dh3_frame true 6 2 50, 0 ≤ b ∧ b < 256) ∧
    ([0x01, 0x06, 0x01, 0x01, 0x00, 0x32, 0x58, 0x23] : List Int).length = 8 :=
  ⟨frame_invariants.1 true 6 2 50 (by decide) (by decide),
   (frame_invariants.2 true 1 1 50
      [0x01, 0x06, 0x01, 0x01, 0x00, 0x32, 0x58, 0x23] (by decide)).1⟩

set_option maxRecDepth 8192 in
/-- Claim C5: `cal_crc` computes the CRC-16 with generating polynomial
`0x8005` in reflected (bit-reversed) form, initial register `0xFFFF`
and no final XOR — the CRC-16/MODBUS variant (`crc16Spec` is written
from that description, with the polynomial constant literally
`bitRev 16 0x8005`) — and returns the pair (low byte, high byte) of
the 16-bit result.  The last conjunct checks the standard
CRC-16/MODBUS test vector `"123456789" ↦ 0x4B37`. -/
theorem cal_crc_is_reflected_crc16 :
    (∀ a : List Int, (∀ v ∈ a, -128 ≤ v ∧ v ≤ 127) →
      cal_crc a = some (crc16Spec (a.map fun v => (v % 256).toNat) % 256,
                        crc16Spec (a.map fun v => (v % 256).toNat) / 256)) ∧
    bitRev 16 0x8005 = 0xA001 ∧
    crc16Spec [] = 0xFFFF ∧
    crc16Spec [0x31, 0x32, 0x33, 0x34, 0x35, 0x36, 0x37, 0x38, 0x39] =
      0x4B37 := by
  have hstep : crcSpecStep = crcBit := by
    funext c
    unfold crcSpecStep crcBit
    rw [show bitRev 16 0x8005 = 0xA001 from by decide]
  have hbyte : crcSpecByte = crcByteUpd := by
    funext c b
    unfold crcSpecByte crcByteUpd
    rw [hstep]
    rfl
  have hcrc : crc16Spec = crc16 := by
    funext bs
    unfold crc16Spec crc16
    rw [hbyte]
  refine ⟨?_, by decide, by decide, ?_⟩
  · intro a ha
    unfold cal_crc
    rw [mapM_sByte_of_bounds ha, hcrc]
    rfl
  · rw [hcrc]
    decide

/-- Witness for `cal_crc_is_reflected_crc16` at a concrete input. -/
theorem cal_crc_is_reflected_crc16_witness :
    cal_crc [(1 : Int), -1] =
      some (crc16Spec (([(1 : Int), -1]).map fun v => (v % 256).toNat) % 256,
            crc16Spec (([(1 : Int), -1]).map fun v => (v % 256).toNat) / 256) :=
  cal_crc_is_reflected_crc16.1 [1, -1] (by decide)

/-- Claim C6: for every setter of either variant, a value strictly
outside the operation's closed interval raises the range error before
any frame is built or written (the resulting trace has no writes and
no reads); the values `min` and `max` themselves pass validation; and
the range error is raised exactly when the value is outside the closed
interval. -/
theorem range_validation :
    (∀ (op : RgdOp) (val : Int) (resp : List Nat),
      ((rgd_set op val resp).err = some GErr.rangeErr ↔
        ¬(op.bounds.1 ≤ val ∧ val ≤ op.bounds.2)) ∧
      (¬(op.bounds.1 ≤ val ∧ val ≤ op.bounds.2) →
        rgd_set op val resp = ⟨[], 0, some GErr.rangeErr, none⟩)) ∧
    (∀ (op : RgdOp) (resp : List Nat),
      (rgd_set op op.bounds.1 resp).err ≠ some GErr.rangeErr ∧
      (rgd_set op op.bounds.2 resp).err ≠ some GErr.rangeErr) ∧
    (∀ (op : Dh3Op) (val : Int) (resp : List Nat),
      ((dh3_set op val resp).err = some GErr.rangeErr ↔
        ¬(op.bounds.1 ≤ val ∧ val ≤ op.bounds.2)) ∧
      (¬(op.bounds.1 ≤ val ∧ val ≤ op.bounds.2) →
        dh3_set op val resp = ⟨[], 0, some GErr.rangeErr, none⟩)) ∧
    (∀ (op : Dh3Op) (resp : List Nat),
      (dh3_set op op.bounds.1 resp).err ≠ some GErr.rangeErr ∧
      (dh3_set op op.bounds.2 resp).err ≠ some GErr.rangeErr) := by
  refine ⟨fun op val resp => ⟨rgd_set_rangeErr_iff op val resp,
      rgd_set_out_of_range op val resp⟩, fun op resp => ⟨?_, ?_⟩,
    fun op val resp => ⟨dh3_set_rangeErr_iff op val resp,
      dh3_set_out_of_range op val resp⟩, fun op resp => ⟨?_, ?_⟩⟩
  · intro h
    exact (rgd_set_rangeErr_iff op op.bounds.1 resp).mp h
      (by cases op <;> decide)
  · intro h
    exact (rgd_set_rangeErr_iff op op.bounds.2 resp).mp h
      (by cases op <;> decide)
  · intro h
    exact (dh3_set_rangeErr_iff op op.bounds.1 resp).mp h
      (by cases op <;> decide)
  · intro h
    exact (dh3_set_rangeErr_iff op op.bounds.2 resp).mp h
      (by cases op <;> decide)

/-- Witness for `range_validation` at concrete inputs. -/
theorem range_validation_witness :
    rgd_set .force 101 [] = ⟨[], 0, some GErr.rangeErr, none⟩ ∧
    dh3_set .pos 96 [] = ⟨[], 0, some GErr.rangeErr, none⟩ :=
  ⟨(range_validation.1 .force 101 []).2 (by decide),
   (range_validation.2.2.1 .pos 96 []).2 (by decide)⟩

/-- Claim C7: `set_pos(50)` on the DH3 driver transmits exactly the 14
bytes `FF FE FD FC 01 06 02 01 00 00 00 00 32 FB`. -/
theorem calling_dh3_set_pos_50_frame (resp : List Nat) :
    (dh3_set .pos 50 resp).writes =
      [[0xFF, 0xFE, 0xFD, 0xFC, 0x01, 0x06, 0x02, 0x01, 0x00,
        0x00, 0x00, 0x00, 0x32, 0xFB]] := rfl

/-- Claim C8, counterexample: DH3 `init_feedback` is NOT
fire-and-forget — it leaves `write_uart`'s `is_read` at its default
`True`, so it performs a (settle-delayed) transport read and decodes
the response. -/
theorem dh3_init_feedback_cex :
    (dh3_init_feedback [0, 0, 0, 0, 7]).reads ≠ 0 ∧
    (dh3_write_uart 0x08 0x01 (-1) true true [0, 0, 0, 0, 7]).ret =
      some 7 := by
  decide

/-- Claim C8, amended: DH3 `init_feedback` writes the value −1 to
register 0x0801 exactly once (frame
`FF FE FD FC 01 08 01 01 00 FF FF FF FF FB`) and performs no polling
loop, but — `is_read` defaulting to `True` — it DOES perform one
blocking read-and-decode of the response, whose value it discards
(`init_feedback` returns `None`). -/
theorem dh3_init_feedback_single_write (resp : List Nat) :
    dh3_init_feedback resp =
      ⟨[[0xFF, 0xFE, 0xFD, 0xFC, 0x01, 0x08, 0x01, 0x01, 0x00,
         0xFF, 0xFF, 0xFF, 0xFF, 0xFB]], 1, none, none⟩ := rfl

/-- Claim C9: `set_abs_rot(-32768)` and `set_rel_rot(-32768)` pass the
range check (the declared bound is `[-32768, 32767]`) but fail with the
overflow error inside encoding — the negative-value decrement produces
−32769, which does not fit the 2-byte signed split — before any byte
reaches the transport; every value in `[-32767, 32767]` encodes
successfully. -/
theorem rot_min_value_overflow :
    in_range (-32768) (-32768) 32767 = true ∧
    (∀ resp : List Nat,
      rgd_set .absRot (-32768) resp = ⟨[], 0, some GErr.overflowErr, none⟩) ∧
    (∀ resp : List Nat,
      rgd_set .relRot (-32768) resp = ⟨[], 0, some GErr.overflowErr, none⟩) ∧
    (∀ (op : RgdOp) (v : Int), -32767 ≤ v → v ≤ 32767 →
      (rgd_frame true op.addr.1 op.addr.2 v).isSome = true) := by
  refine ⟨by decide, fun resp => rfl, fun resp => rfl, ?_⟩
  intro op v h1 h2
  have haddr : op.addr.1 ≤ 127 ∧ op.addr.2 ≤ 127 := by cases op <;> decide
  rw [rgd_frame_build haddr.1 haddr.2 h1 h2]
  rfl

/-- Witness for `rot_min_value_overflow` at a concrete input. -/
theorem rot_min_value_overflow_witness :
    (rgd_frame true RgdOp.absRot.addr.1 RgdOp.absRot.addr.2 (-32767)).isSome =
      true :=
  rot_min_value_overflow.2.2.2 .absRot (-32767) (by decide) (by decide)

/-- Claim C10: when a response is expected but the transport returns
fewer than 5 bytes, `write_uart` (either variant) does not raise: it
decodes the (possibly empty) slice at offsets 3-4 and returns its value
— the empty buffer decodes to 0 — and every short-buffer result is
also produced by some full 5-byte response, so a caller cannot
distinguish a missing response from a genuine reading (in particular a
genuine reading of 0). -/
theorem short_response_decoding :
    (∀ resp : List Nat, resp.length < 5 →
      (dh3_write_uart 0x0F 0x01 0x01 false true resp).err = none ∧
      (dh3_write_uart 0x0F 0x01 0x01 false true resp).ret =
        some (decode_resp resp)) ∧
    (∀ resp : List Nat, resp.length < 5 →
      (rgd_write_uart 0x02 0x01 0x01 false true resp).err = none ∧
      (rgd_write_uart 0x02 0x01 0x01 false true resp).ret =
        some (decode_resp resp)) ∧
    decode_resp [] = 0 ∧
    (∀ x y z : Nat, decode_resp [x, y, z, 0, 0] = 0) ∧
    (∀ resp : List Nat, resp.length < 5 → (∀ b ∈ resp, b < 256) →
      ∃ full : List Nat, full.length = 5 ∧ (∀ b ∈ full, b < 256) ∧
        decode_resp full = decode_resp resp) := by
  refine ⟨fun resp _ => ⟨rfl, rfl⟩, fun resp _ => ⟨rfl, rfl⟩, by decide,
    fun x y z => rfl, ?_⟩
  intro resp hlen hbytes
  match resp with
  | [] => exact ⟨[0, 0, 0, 0, 0], rfl, by decide, rfl⟩
  | [r0] => exact ⟨[0, 0, 0, 0, 0], rfl, by decide, rfl⟩
  | [r0, r1] => exact ⟨[0, 0, 0, 0, 0], rfl, by decide, rfl⟩
  | [r0, r1, r2] => exact ⟨[0, 0, 0, 0, 0], rfl, by decide, rfl⟩
  | [r0, r1, r2, r3] =>
    have hr3 : r3 < 256 := hbytes r3 (by simp)
    by_cases hc : r3 < 128
    · refine ⟨[0, 0, 0, 0, r3], rfl, ?_, ?_⟩
      · intro b hb
        simp only [List.mem_cons, List.not_mem_nil, or_false] at hb
        rcases hb with rfl | rfl | rfl | rfl | rfl <;> omega
      · rw [decode_resp_two 0 0 0 0 r3 (by norm_num) hr3,
          decode_resp_one r0 r1 r2 r3 hr3]
        rw [if_pos (by omega), if_pos hc]
        norm_num
    · refine ⟨[0, 0, 0, 255, r3], rfl, ?_, ?_⟩
      · intro b hb
        simp only [List.mem_cons, List.not_mem_nil, or_false] at hb
        rcases hb with rfl | rfl | rfl | rfl | rfl <;> omega
      · rw [decode_resp_two 0 0 0 255 r3 (by norm_num) hr3,
          decode_resp_one r0 r1 r2 r3 hr3]
        rw [if_neg (by omega), if_neg hc]
        push_cast
        omega
  | r0 :: r1 :: r2 :: r3 :: r4 :: rest =>
    exact absurd hlen (by simp)

/-- Witness for `short_response_decoding` at concrete inputs. -/
theorem short_response_decoding_witness :
    (rgd_write_uart 0x02 0x01 0x01 false true []).ret = some 0 ∧
    ∃ full : List Nat, full.length = 5 ∧ (∀ b ∈ full, b < 256) ∧
      decode_resp full = decode_resp [0, 0, 0, 200] :=
  ⟨(short_response_decoding.2.1 [] (by decide)).2,
   short_response_decoding.2.2.2.2 [0, 0, 0, 200] (by decide) (by decide)⟩

end PyDHgripper
